import Mathlib

/-!
Verification of the nordhero core against its specification: the server
inventory store (`DatabaseClient`), the live-status reconciler
(`_parse_wg_interface_output`, `_find_server_in_db`, `check_wireguard_status`),
the selector (`get_best_servers`) and the config store (`ConfigManager`).
Python strings are modelled as lists of characters; the helpers below mirror
the CPython semantics of the string operations the source uses.
-/

namespace Nordhero

/-- Python strings, modelled as lists of characters. -/
abbrev Str := List Char

/-- The characters Python's `str.strip()` removes by default. -/
def pyIsSpace (c : Char) : Bool :=
  c = ' ' || c = '\t' || c = '\n' || c = '\r' || c = '\x0b' || c = '\x0c'

/-- Python `str.lower()` on one character.  The source only ever lowercases
text whose significant characters are ASCII, so the ASCII mapping suffices. -/
def pyLowerChar (c : Char) : Char :=
  if 65 ≤ c.toNat && c.toNat ≤ 90 then Char.ofNat (c.toNat + 32) else c

/-- Python `str.lower()`. -/
def pyLower (s : Str) : Str := s.map pyLowerChar

/-- Python `str.strip()`. -/
def pyStrip (s : Str) : Str :=
  ((s.dropWhile pyIsSpace).reverse.dropWhile pyIsSpace).reverse

/-- Python `x in s` (substring containment; `'' in s` is true). -/
def pyIn (needle : Str) : Str → Bool
  | [] => needle.isEmpty
  | c :: rest => needle.isPrefixOf (c :: rest) || pyIn needle rest

/-- Python `s.split(sep)` for a one-character separator: keeps empty pieces,
and `"".split(sep) = ['']`. -/
def pySplitChar (sep : Char) : Str → List Str
  | [] => [[]]
  | c :: rest =>
    match pySplitChar sep rest with
    | [] => [[c]]
    | h :: t => if c = sep then [] :: h :: t else (c :: h) :: t

/-- Python `s.split(sep, 1)` for a one-character separator. -/
def pySplit1Char (sep : Char) : Str → List Str
  | [] => [[]]
  | c :: rest =>
    if c = sep then [[], rest]
    else
      match pySplit1Char sep rest with
      | [] => [[c]]
      | h :: t => (c :: h) :: t

/-- Worker for `pySplitSub`; the fuel argument starts at the length of the
string and bounds the recursion (each step consumes at least one character). -/
def pySplitSubAux (sep : Str) : Nat → Str → List Str
  | _, [] => [[]]
  | 0, s => [s]
  | fuel + 1, c :: rest =>
    if !sep.isEmpty && sep.isPrefixOf (c :: rest) then
      [] :: pySplitSubAux sep fuel ((c :: rest).drop sep.length)
    else
      match pySplitSubAux sep fuel rest with
      | [] => [[c]]
      | h :: t => (c :: h) :: t

/-- Python `s.split(sep)` for a multi-character separator: non-overlapping
occurrences, scanned left to right.  Every call site passes a nonempty
separator (Python raises on an empty one). -/
def pySplitSub (sep s : Str) : List Str :=
  if sep.isEmpty then [s] else pySplitSubAux sep s.length s

/-- `models/data_models.py`: `WGTransferInfo`. -/
structure WGTransferInfo where
  received : Str
  sent : Str
deriving DecidableEq, Repr

/-- `models/data_models.py`: `WGConnectionDetails`. -/
structure WGConnectionDetails where
  public_key : Option Str := none
  endpoint : Option Str := none
  latest_handshake : Option Str := none
  transfer : WGTransferInfo
deriving DecidableEq, Repr

/-- The `connection_info` dictionary that `_parse_wg_interface_output`
accumulates over the lines of the raw tool output. -/
structure ParseState where
  public_key : Option Str
  endpoint : Option Str
  latest_handshake : Option Str
  received : Str
  sent : Str
deriving DecidableEq, Repr

/-- The initial `connection_info` dictionary: optional fields unset, transfer
counters defaulted to the display strings `'0 B'`. -/
def initialParseState : ParseState :=
  { public_key := none, endpoint := none, latest_handshake := none,
    received := "0 B".data, sent := "0 B".data }

/-- The remainder of a `transfer:` line: `line.split(':', 1)[1].strip()`. -/
def transferRest (line : Str) : Str :=
  pyStrip ((pySplit1Char ':' line).getD 1 [])

/-- One iteration of the line loop of `_parse_wg_interface_output`
(`models/connection_management.py`).  The `none` result models the
`ValueError` raised when the `transfer:` remainder contains both `received`
and `sent` but does not split on `','` into exactly two parts — the only
statement in the loop that can throw; the surrounding `except` turns it into
a `None` return of the whole parse. -/
def parseLine (st : ParseState) (rawLine : Str) : Option ParseState :=
  let line := pyLower (pyStrip rawLine)
  if pyIn ("peer:".data) line then
    some { st with public_key := some (pyStrip ((pySplitChar ':' line).getD 1 [])) }
  else if pyIn ("endpoint:".data) line then
    let ep := pyStrip ((pySplitChar ':' line).getD 1 [])
    let ep := if pyIn (":".data) ep then (pySplitChar ':' ep).getD 0 [] else ep
    some { st with endpoint := some ep }
  else if pyIn ("latest handshake:".data) line then
    some { st with latest_handshake := some (pyStrip ((pySplit1Char ':' line).getD 1 [])) }
  else if pyIn ("transfer:".data) line then
    let t := transferRest line
    if pyIn ("received".data) t && pyIn ("sent".data) t then
      match pySplitChar ',' t with
      | [recPart, sentPart] =>
        some { st with
          received := pyStrip ((pySplitSub ("received".data) recPart).getD 0 []),
          sent := pyStrip ((pySplitSub ("sent".data) sentPart).getD 0 []) }
      | _ => none
    else some st
  else some st

/-- The line loop of `_parse_wg_interface_output`: threads the dictionary
through the lines, aborting on the one possible exception. -/
def parseLines : ParseState → List Str → Option ParseState
  | st, [] => some st
  | st, l :: ls =>
    match parseLine st l with
    | none => none
    | some st' => parseLines st' ls

/-- `models/connection_management.py`: `_parse_wg_interface_output`.  Returns
`none` exactly when the caught `ValueError` fires; otherwise packages the
accumulated dictionary into a `WGConnectionDetails`. -/
def parse_wg_interface_output (output : Str) : Option WGConnectionDetails :=
  match parseLines initialParseState (pySplitChar '\n' output) with
  | none => none
  | some st =>
    some { public_key := st.public_key, endpoint := st.endpoint,
           latest_handshake := st.latest_handshake,
           transfer := { received := st.received, sent := st.sent } }

/-- `models/data_models.py`: `ServerDBRecord` — one row of the `servers`
table, in insertion order in the lists below (SQLite returns unordered
selects on this table in rowid = insertion order). -/
structure ServerDBRecord where
  hostname : Str
  ip : Str
  country : Str
  city : Str
  load : Int
  public_key : Str
deriving DecidableEq, Repr

/-- The conjunctive WHERE clause built by `DatabaseClient._build_where_clause`:
a `none` filter is skipped (`value is not None`), the country comparison is
case-insensitive (`LOWER(country) = LOWER(?)`), all others exact. -/
def matchesFilters (country city ip public_key : Option Str) (r : ServerDBRecord) : Bool :=
  (match country with | none => true | some c => pyLower r.country == pyLower c) &&
  (match city with | none => true | some c => r.city == c) &&
  (match ip with | none => true | some v => r.ip == v) &&
  (match public_key with | none => true | some v => r.public_key == v)

/-- SQLite `LIMIT l OFFSET o` semantics: a negative limit disables the bound,
the offset (attached only when positive, as in `get_servers`) skips rows. -/
def applyLimitOffset (rows : List ServerDBRecord) (l : Int) (offset : Int) : List ServerDBRecord :=
  let rows' := if offset > 0 then rows.drop offset.toNat else rows
  if l < 0 then rows' else rows'.take l.toNat

/-- `models/database_management.py`: `DatabaseClient.get_servers`.  The limit
is attached to the query only when truthy (`if limit:` — so `None` and `0`
both mean "no limit"), and the offset only when a limit is present and
positive. -/
def get_servers (db : List ServerDBRecord) (country city ip public_key : Option Str)
    (limit : Option Int) (offset : Int) : List ServerDBRecord :=
  let rows := db.filter (fun r => matchesFilters country city ip public_key r)
  match limit with
  | none => rows
  | some l => if l = 0 then rows else applyLimitOffset rows l offset

/-- Python truthiness of an optional string (`if details.endpoint:`):
false for `None` and for the empty string. -/
def optTruthy : Option Str → Bool
  | none => false
  | some s => !s.isEmpty

/-- Outcome of the database lookups inside `_find_server_in_db`: `fail`
models any exception from `get_servers` (all are caught inside the function
and logged, leaving `(None, None)`), `ok` a working store with the given
rows. -/
inductive DbQueryOutcome where
  | fail
  | ok (db : List ServerDBRecord)
deriving DecidableEq, Repr

/-- `models/connection_management.py`: `_find_server_in_db`.  Phase one looks
the endpoint address up (`ip=` filter, `limit=1`); only if it found nothing
and a public key is present does phase two look the key up. -/
def find_server_in_db (details : WGConnectionDetails) (dbo : DbQueryOutcome) :
    Option ServerDBRecord × Option Str :=
  match dbo with
  | .fail => (none, none)
  | .ok db =>
    let byIp : Option ServerDBRecord :=
      if optTruthy details.endpoint then
        let e := details.endpoint.getD []
        (get_servers db none none (some e) none (some 1) 0).find? (fun srv => srv.ip == e)
      else none
    match byIp with
    | some srv => (some srv, some ("ip".data))
    | none =>
      if optTruthy details.public_key then
        let k := details.public_key.getD []
        match (get_servers db none none none (some k) (some 1) 0).find? (fun srv => srv.public_key == k) with
        | some srv => (some srv, some ("public_key".data))
        | none => (none, none)
      else (none, none)

/-- `models/data_models.py`: `ConnectedServerAppInfo`. -/
structure ConnectedServerAppInfo where
  country : Str
  city : Str
  load : Int
  hostname : Str
  endpoint : Option Str := none
  latest_handshake : Option Str := none
  transfer : WGTransferInfo
  found_by : Option Str := none
deriving DecidableEq, Repr

/-- `models/data_models.py`: `WGStatusReport`. -/
structure WGStatusReport where
  is_connected : Bool
  interface_details : Option WGConnectionDetails := none
  app_server_info : Option ConnectedServerAppInfo := none
  raw_unmatched_details : Option WGConnectionDetails := none
deriving DecidableEq, Repr

/-- Behaviour of one `subprocess.run` invocation of the external tool:
either it raises (missing binary, etc. — caught by the enclosing handlers of
`check_wireguard_status`), or it returns an exit code and captured stdout. -/
inductive ToolCallOutcome where
  | raise
  | ret (returncode : Int) (stdout : Str)
deriving DecidableEq, Repr

/-- Behaviour of `DatabaseClient()` in `check_wireguard_status`: opening the
connection can raise (caught by the enclosing handlers), otherwise the
lookups behave per `DbQueryOutcome`. -/
inductive DbConnectOutcome where
  | raiseConn
  | conn (q : DbQueryOutcome)
deriving DecidableEq, Repr

/-- `models/connection_management.py`: `check_wireguard_status`, as a function
of the behaviour of its three external collaborators: the `wg show` listing
call, the `wg show wg0` verbose call, and the database.  Every exception
raised inside the body is caught by one of the trailing handlers, each of
which returns a fresh `WGStatusReport(is_connected=False)`.  The verbose
call's return code is never inspected — only its stdout is used. -/
def check_wireguard_status (showCall showWg0Call : ToolCallOutcome)
    (dbc : DbConnectOutcome) : WGStatusReport :=
  match showCall with
  | .raise => { is_connected := false }
  | .ret rc out =>
    if rc ≠ 0 then { is_connected := false }
    else
      if !((pySplitSub ("\n\n".data) (pyStrip out)).any
            (fun i => ("interface: wg0".data).isPrefixOf i)) then
        { is_connected := false }
      else
        match showWg0Call with
        | .raise => { is_connected := false }
        | .ret _ wgOut =>
          match parse_wg_interface_output wgOut with
          | none => { is_connected := true }
          | some d =>
            match dbc with
            | .raiseConn => { is_connected := false }
            | .conn q =>
              match find_server_in_db d q with
              | (some srv, method) =>
                { is_connected := true, interface_details := some d,
                  app_server_info := some
                    { country := srv.country, city := srv.city, load := srv.load,
                      hostname := srv.hostname, endpoint := d.endpoint,
                      latest_handshake := d.latest_handshake, transfer := d.transfer,
                      found_by := method } }
              | (none, _) =>
                { is_connected := true, interface_details := some d,
                  raw_unmatched_details := some d }

/-- The load ceiling of `DatabaseClient._add_load_filter`: attached only when
`show_all` is false and `max_load` is positive. -/
def loadFilterPasses (max_load : Int) (show_all : Bool) (r : ServerDBRecord) : Bool :=
  if !show_all && max_load > 0 then r.load < max_load else true

/-- The row ordering produced by `ORDER BY load ASC` on the `servers` table:
ascending load, ties kept in stored (insertion) order — a stable sort. -/
def sortByLoad (rows : List ServerDBRecord) : List ServerDBRecord :=
  rows.insertionSort (fun a b => a.load ≤ b.load)

/-- `models/database_management.py`: `get_best_servers`.  Filters by optional
country (case-insensitive) and the load ceiling, orders by load ascending and
attaches `LIMIT` only when the limit is truthy (`if limit:`).  The limit is a
natural number: every caller passes a non-negative count. -/
def get_best_servers (db : List ServerDBRecord) (country : Option Str)
    (limit : Nat) (max_load : Int) (show_all : Bool) : List ServerDBRecord :=
  let rows := db.filter (fun r =>
    matchesFilters country none none none r && loadFilterPasses max_load show_all r)
  let sorted := sortByLoad rows
  if limit ≠ 0 then sorted.take limit else sorted

/-- One row of the CSV file consumed by `DatabaseClient.import_csv`; `load`
is the raw text that `int(row['load'])` is applied to. -/
structure CsvRow where
  hostname : Str
  ip : Str
  country : Str
  city : Str
  load : Str
  public_key : Str
deriving DecidableEq, Repr

/-- Python `int(s)` on a string: optional surrounding whitespace, optional
sign, then a nonempty digit run.  `none` models the `ValueError`. -/
def pyInt (s : Str) : Option Int :=
  let t := pyStrip s
  let core : Option (Bool × Str) :=
    match t with
    | '-' :: rest => some (true, rest)
    | '+' :: rest => some (false, rest)
    | _ => some (false, t)
  match core with
  | some (neg, digits) =>
    if digits.isEmpty || !digits.all (fun c => c.isDigit) then none
    else
      let n : Nat := digits.foldl (fun acc c => acc * 10 + (c.toNat - 48)) 0
      some (if neg then -(n : Int) else (n : Int))
  | none => none

/-- The `ServerDBRecord(...)` validation applied per CSV row inside
`import_csv`: `none` models the `ValueError` from `int(row['load'])`. -/
def rowToRecord (row : CsvRow) : Option ServerDBRecord :=
  (pyInt row.load).map (fun l =>
    { hostname := row.hostname, ip := row.ip, country := row.country,
      city := row.city, load := l, public_key := row.public_key })

/-- The state a database file holds: the `servers` table and the singleton
`last_update` metadata row. -/
structure DBState where
  servers : List ServerDBRecord
  metadata : Option Str
deriving DecidableEq, Repr

/-- An open SQLite connection: `committed` is what the file durably holds,
`pending` the view inside the current (implicit) transaction.  Closing the
connection without committing discards `pending` — SQLite rolls the open
transaction back. -/
structure Conn where
  committed : DBState
  pending : DBState
deriving DecidableEq, Repr

/-- The ways `import_csv` can fail: the CSV path check, a `ValueError` from
row validation, or an `IntegrityError` from the `UNIQUE(hostname)`
constraint.  All propagate to the caller. -/
inductive ImportError where
  | fileNotFound
  | rowError
  | constraintError
deriving DecidableEq, Repr

/-- The `INSERT` statements of `import_csv` run against the `servers` table
inside the open transaction (chunking via `executemany` only batches the
statements; it does not change which rows end up inserted or which insert
fails first).  Returns the error, if any, and the table as left by the
statements that ran. -/
def insertRows : List ServerDBRecord → List CsvRow → Option ImportError × List ServerDBRecord
  | tbl, [] => (none, tbl)
  | tbl, row :: rest =>
    match rowToRecord row with
    | none => (some .rowError, tbl)
    | some r =>
      if tbl.any (fun x => x.hostname == r.hostname) then (some .constraintError, tbl)
      else insertRows (tbl ++ [r]) rest

/-- Result of `import_csv`: on success the connection (with the transaction
committed) and the imported count; on failure the raised error and the
connection as the exception leaves it — pending changes made but nothing
committed. -/
inductive ImportResult where
  | ok (conn : Conn) (total : Nat)
  | err (e : ImportError) (conn : Conn)
deriving DecidableEq, Repr

/-- `models/database_management.py`: `DatabaseClient.import_csv`.  `file` is
`none` when the CSV path does not exist (the guard raises before any SQL
runs).  Otherwise: `DELETE FROM servers`, row-validated inserts, then a
single `conn.commit()` at the very end — no commit happens on any failing
path. -/
def import_csv (conn : Conn) (file : Option (List CsvRow)) : ImportResult :=
  match file with
  | none => .err .fileNotFound conn
  | some rows =>
    let cleared : DBState := { conn.pending with servers := [] }
    match insertRows [] rows with
    | (some e, tbl) => .err e { conn with pending := { cleared with servers := tbl } }
    | (none, tbl) =>
      let final : DBState := { cleared with servers := tbl }
      .ok { committed := final, pending := final } tbl.length

/-- Result of the database portion of `init_database`: either the refresh
succeeded (new and previous counts reported to the caller), or some step
raised and the handler called `sys.exit(1)`.  Either way the field records
the state the database file observably holds once the connection is gone. -/
inductive InitDbResult where
  | ok (final : DBState) (newCount prevCount : Nat)
  | exited (final : DBState)
deriving DecidableEq, Repr

/-- `models/database_management.py`: `init_database`, from the point the
database is opened (API fetch and CSV generation precede any database
access).  Reads the previous count, runs `import_csv` — which *commits* on
success — reads the new count, then updates the `last_update` metadata row
and commits a second time.  `metaWriteFails` injects a storage-engine error
at that later metadata statement (or its commit): the `except` handler then
exits the process, the connection closes, and the file keeps exactly what
was committed so far — which already includes the imported records. -/
def init_database (initial : DBState) (file : Option (List CsvRow)) (now : Str)
    (metaWriteFails : Bool) : InitDbResult :=
  let conn : Conn := { committed := initial, pending := initial }
  let prevCount := conn.pending.servers.length
  match import_csv conn file with
  | .err _ conn' => .exited conn'.committed
  | .ok conn' _ =>
    let newCount := conn'.pending.servers.length
    if metaWriteFails then .exited conn'.committed
    else
      let p : DBState := { conn'.pending with metadata := some now }
      .ok p newCount prevCount

/-- The observable database state after running `import_csv` on a fresh
connection over `s` and closing it: the committed result on success, `s`
itself when the import raised (the open transaction is rolled back). -/
def importObservable (s : DBState) (file : Option (List CsvRow)) : DBState :=
  match import_csv { committed := s, pending := s } file with
  | .ok conn _ => conn.committed
  | .err _ conn => conn.committed

/-- A validated IPv4 address (the `ipaddress.IPv4Address` object pydantic's
`IPvAnyAddress` holds), as four octets. -/
structure IPv4Addr where
  o1 : Nat
  o2 : Nat
  o3 : Nat
  o4 : Nat
deriving DecidableEq, Repr

/-- A validated IPv4 network (the `ipaddress.IPv4Network` object pydantic's
`IPvAnyNetwork` holds): base address plus mask length. -/
structure IPv4Net where
  addr : IPv4Addr
  prefixLen : Nat
deriving DecidableEq, Repr

def ipv4ToNat (a : IPv4Addr) : Nat :=
  a.o1 * 16777216 + a.o2 * 65536 + a.o3 * 256 + a.o4

def natToIPv4 (n : Nat) : IPv4Addr :=
  { o1 := n / 16777216 % 256, o2 := n / 65536 % 256, o3 := n / 256 % 256, o4 := n % 256 }

/-- Iterating an `IPv4Network` (`__iter__`) yields every address it covers,
base address first. -/
def netAddresses (net : IPv4Net) : List IPv4Addr :=
  (List.range (2 ^ (32 - net.prefixLen))).map (fun i => natToIPv4 (ipv4ToNat net.addr + i))

def natToDecimal (n : Nat) : Str := Nat.toDigits 10 n

def dottedQuad (a : IPv4Addr) : Str :=
  natToDecimal a.o1 ++ ('.' :: natToDecimal a.o2) ++ ('.' :: natToDecimal a.o3) ++
    ('.' :: natToDecimal a.o4)

/-- `repr(IPv4Address(...))`, which is what `toml`'s `_dump_str` fallback
(`v = "%r" % v`) renders an unknown, non-iterable object as. -/
def reprIPv4Address (a : IPv4Addr) : Str :=
  "IPv4Address('".data ++ dottedQuad a ++ "')".data

/-- `models/data_models.py`: `AppConfigWireguard`.  `client_ip`/`dns` hold
the validated `ipaddress` objects pydantic produces. -/
structure AppConfigWireguard where
  private_key_file : Str
  client_ip : IPv4Net
  dns : IPv4Addr
  persistent_keepalive : Int
deriving DecidableEq, Repr

/-- `models/data_models.py`: `AppConfigDatabase`. -/
structure AppConfigDatabase where
  path : Str
  max_load : Int
  default_limit : Int
deriving DecidableEq, Repr

/-- `models/data_models.py`: `AppConfigOutput`. -/
structure AppConfigOutput where
  config_dir : Str
  config_wg_file : Str
deriving DecidableEq, Repr

/-- `models/data_models.py`: `AppConfig`. -/
structure AppConfig where
  wireguard : AppConfigWireguard
  database : AppConfigDatabase
  output : AppConfigOutput
deriving DecidableEq, Repr

/-- A value of the Python dictionary `AppConfig.model_dump()` returns:
python-mode dumping keeps the `ipaddress` objects as objects. -/
inductive PyValue where
  | str (s : Str)
  | int (n : Int)
  | ipNet (net : IPv4Net)
  | ipAddr (a : IPv4Addr)
  | table (fields : List (Str × PyValue))

/-- A value of the TOML document `toml.dump` writes and `toml.load` reads
back (the concrete syntax round-trips these structurally). -/
inductive TomlValue where
  | str (s : Str)
  | int (n : Int)
  | arr (vs : List TomlValue)
  | table (fields : List (Str × TomlValue))

/-- `AppConfig.model_dump()` (pydantic v2, python mode): nested dict with the
IP-typed fields kept as `ipaddress` objects, everything else plain. -/
def model_dump (c : AppConfig) : List (Str × PyValue) :=
  [("wireguard".data, .table [
      ("private_key_file".data, .str c.wireguard.private_key_file),
      ("client_ip".data, .ipNet c.wireguard.client_ip),
      ("dns".data, .ipAddr c.wireguard.dns),
      ("persistent_keepalive".data, .int c.wireguard.persistent_keepalive)]),
   ("database".data, .table [
      ("path".data, .str c.database.path),
      ("max_load".data, .int c.database.max_load),
      ("default_limit".data, .int c.database.default_limit)]),
   ("output".data, .table [
      ("config_dir".data, .str c.output.config_dir),
      ("config_wg_file".data, .str c.output.config_wg_file)])]

mutual

/-- The `toml` 0.10.2 encoder's `dump_value`: known scalar types pass
through; a type with no registered dump function but an `__iter__`
(`IPv4Network` iterates its addresses) is dumped as a list; any other
unknown type falls back to `_dump_str`, which renders `repr(v)`
(`IPv4Address` objects become the string `IPv4Address('...')`). -/
def tomlDumpValue : PyValue → TomlValue
  | .str s => .str s
  | .int n => .int n
  | .ipNet net => .arr ((netAddresses net).map (fun a => .str (reprIPv4Address a)))
  | .ipAddr a => .str (reprIPv4Address a)
  | .table fs => .table (tomlDumpFields fs)

def tomlDumpFields : List (Str × PyValue) → List (Str × TomlValue)
  | [] => []
  | (k, v) :: rest => (k, tomlDumpValue v) :: tomlDumpFields rest

end

/-- `ConfigManager.save` (`models/config_management.py`): the document
`toml.dump(self.config.model_dump(), f)` writes to `config.toml`. -/
def save (c : AppConfig) : TomlValue :=
  .table (tomlDumpFields (model_dump c))

def lookupField (fs : List (Str × TomlValue)) (k : Str) : Option TomlValue :=
  (fs.find? (fun p => p.1 == k)).map (fun p => p.2)

def parseOctet (s : Str) : Option Nat :=
  if s.isEmpty || !s.all (fun c => c.isDigit) then none
  else
    let n := s.foldl (fun acc c => acc * 10 + (c.toNat - 48)) 0
    if n ≤ 255 then some n else none

/-- `ipaddress.IPv4Address(s)` on a string: a dotted quad of octets. -/
def parseIPv4Addr (s : Str) : Option IPv4Addr :=
  match pySplitChar '.' s with
  | [p1, p2, p3, p4] => do
    let a ← parseOctet p1
    let b ← parseOctet p2
    let c ← parseOctet p3
    let d ← parseOctet p4
    pure { o1 := a, o2 := b, o3 := c, o4 := d }
  | _ => none

/-- `ipaddress.IPv4Network(s)` on a string (strict, as pydantic validates):
optional `/len`; host bits must be zero. -/
def parseIPv4Net (s : Str) : Option IPv4Net :=
  match pySplitChar '/' s with
  | [a] => (parseIPv4Addr a).map (fun ad => { addr := ad, prefixLen := 32 })
  | [a, p] => do
    let ad ← parseIPv4Addr a
    let pl ← pyInt p
    if 0 ≤ pl ∧ pl ≤ 32 then
      let plen := pl.toNat
      if ipv4ToNat ad % 2 ^ (32 - plen) = 0 then
        pure { addr := ad, prefixLen := plen }
      else none
    else none
  | _ => none

def asStr : TomlValue → Option Str
  | .str s => some s
  | _ => none

/-- pydantic lax-mode integer field: an int passes, a numeric string is
coerced. -/
def asInt : TomlValue → Option Int
  | .int n => some n
  | .str s => pyInt s
  | _ => none

/-- pydantic `IPvAnyNetwork` validation of a loaded TOML value: only a string
in network syntax passes (an array, as `save` produces, fails). -/
def asNet : TomlValue → Option IPv4Net
  | .str s => parseIPv4Net s
  | _ => none

def asAddr : TomlValue → Option IPv4Addr
  | .str s => parseIPv4Addr s
  | _ => none

/-- `AppConfig.model_validate` on the dictionary `toml.load` returns;
`none` models the `ValidationError` that propagates out of
`ConfigManager.load_or_create`. -/
def model_validate (v : TomlValue) : Option AppConfig :=
  match v with
  | .table fs => do
    let .table wfs ← lookupField fs ("wireguard".data) | none
    let .table dfs ← lookupField fs ("database".data) | none
    let .table ofs ← lookupField fs ("output".data) | none
    let pkf ← lookupField wfs ("private_key_file".data) >>= asStr
    let cip ← lookupField wfs ("client_ip".data) >>= asNet
    let dns ← lookupField wfs ("dns".data) >>= asAddr
    let ka ← lookupField wfs ("persistent_keepalive".data) >>= asInt
    let path ← lookupField dfs ("path".data) >>= asStr
    let ml ← lookupField dfs ("max_load".data) >>= asInt
    let dl ← lookupField dfs ("default_limit".data) >>= asInt
    let cd ← lookupField ofs ("config_dir".data) >>= asStr
    let cwf ← lookupField ofs ("config_wg_file".data) >>= asStr
    pure { wireguard := { private_key_file := pkf, client_ip := cip, dns := dns,
                          persistent_keepalive := ka },
           database := { path := path, max_load := ml, default_limit := dl },
           output := { config_dir := cd, config_wg_file := cwf } }
  | _ => none

/-- `ConfigManager.load_or_create` on an existing config file holding the
given document: `toml.load` then `AppConfig.model_validate`. -/
def load_or_create (written : TomlValue) : Option AppConfig :=
  model_validate written

/-- `ConfigManager.DEFAULT_CONFIG` (`models/config_management.py`), built
from the constants in `models/core/constants.py`. -/
def DEFAULT_CONFIG : AppConfig :=
  { wireguard := { private_key_file := "config/wireguard.key".data,
                   client_ip := { addr := { o1 := 10, o2 := 5, o3 := 0, o4 := 2 }, prefixLen := 32 },
                   dns := { o1 := 192, o2 := 168, o3 := 68, o4 := 14 },
                   persistent_keepalive := 25 },
    database := { path := "servers.db".data, max_load := 100, default_limit := 0 },
    output := { config_dir := "/etc/wireguard".data,
                config_wg_file := "/etc/wireguard/wg0.conf".data } }

/-- The document a string-rendering save would have written for
`DEFAULT_CONFIG` — what the TOML file must hold for `load_or_create` to
reproduce the config. -/
def defaultConfigGoodDoc : TomlValue :=
  .table [
    ("wireguard".data, .table [
      ("private_key_file".data, .str ("config/wireguard.key".data)),
      ("client_ip".data, .str ("10.5.0.2/32".data)),
      ("dns".data, .str ("192.168.68.14".data)),
      ("persistent_keepalive".data, .int 25)]),
    ("database".data, .table [
      ("path".data, .str ("servers.db".data)),
      ("max_load".data, .int 100),
      ("default_limit".data, .int 0)]),
    ("output".data, .table [
      ("config_dir".data, .str ("/etc/wireguard".data)),
      ("config_wg_file".data, .str ("/etc/wireguard/wg0.conf".data))])]

/-! ### Shared sample data for concrete instances -/

/-- Sample record whose `ip` column holds the empty string. -/
def sampleA : ServerDBRecord :=
  { hostname := "ha".data, ip := [], country := "france".data, city := "paris".data,
    load := 5, public_key := "ka".data }

/-- Sample record with a distinct address and key. -/
def sampleB : ServerDBRecord :=
  { hostname := "hb".data, ip := "9.9.9.9".data, country := "italy".data,
    city := "rome".data, load := 7, public_key := "kb".data }

/-- Sample CSV row that validates. -/
def sampleRow : CsvRow :=
  { hostname := "h1".data, ip := "1.1.1.1".data, country := "france".data,
    city := "paris".data, load := "30".data, public_key := "k1".data }

/-- Sample CSV row whose `load` column is not an integer, so
`int(row['load'])` raises. -/
def sampleRowBad : CsvRow :=
  { hostname := "h2".data, ip := "2.2.2.2".data, country := "france".data,
    city := "paris".data, load := "oops".data, public_key := "k2".data }

/-! ### Shared helper lemmas -/

/-- `import_csv` commits nothing on a failing run: the single `conn.commit()`
sits after every statement that can raise. -/
theorem import_csv_err_committed {conn : Conn} {file : Option (List CsvRow)}
    {e : ImportError} {conn' : Conn} (h : import_csv conn file = .err e conn') :
    conn'.committed = conn.committed := by
  cases file with
  | none =>
    simp only [import_csv] at h
    cases h
    rfl
  | some rows =>
    simp only [import_csv] at h
    rcases h' : insertRows [] rows with ⟨oe, tbl⟩
    rw [h'] at h
    cases oe with
    | none => simp at h
    | some e0 =>
      simp only at h
      cases h
      rfl

/-- Evaluation of `importObservable`: success replaces the server table with
the imported rows and keeps the metadata, any failure leaves the committed
state untouched. -/
theorem importObservable_eq (s : DBState) (file : Option (List CsvRow)) :
    importObservable s file =
      match file with
      | none => s
      | some rows =>
        match insertRows [] rows with
        | (some _, _) => s
        | (none, tbl) => { servers := tbl, metadata := s.metadata } := by
  cases file with
  | none => rfl
  | some rows =>
    simp only [importObservable, import_csv]
    rcases h : insertRows [] rows with ⟨oe, tbl⟩
    cases oe <;> rfl

/-! ### C3 — replaceAll atomicity -/

/-- The record `sampleRow` validates to. -/
def sampleRecord30 : ServerDBRecord :=
  { hostname := "h1".data, ip := "1.1.1.1".data, country := "france".data,
    city := "paris".data, load := 30, public_key := "k1".data }

/-- On a successful import the committed metadata is the connection's
pending metadata — `import_csv` itself never touches the metadata table. -/
theorem import_csv_ok_metadata {conn : Conn} {file : Option (List CsvRow)}
    {conn2 : Conn} {t : Nat} (h : import_csv conn file = .ok conn2 t) :
    conn2.committed.metadata = conn.pending.metadata := by
  cases file with
  | none => simp [import_csv] at h
  | some rows =>
    simp only [import_csv] at h
    rcases h' : insertRows [] rows with ⟨oe, tbl⟩
    rw [h'] at h
    cases oe with
    | some e0 => simp at h
    | none =>
      simp only [ImportResult.ok.injEq] at h
      rw [← h.1]

/-- C3 counterexample: the import itself succeeds and commits, then the
*separate* metadata transaction fails — the exited database holds the new
record with the old refresh marker: a partial replacement is observable,
refuting "the stored records and the marker are left exactly as they were
before the call" for this failure point. -/
theorem c3_counterexample :
    init_database { servers := [sampleA], metadata := some ("t".data) }
        (some [sampleRow]) ("now".data) true =
      .exited { servers := [sampleRecord30], metadata := some ("t".data) } ∧
    ({ servers := [sampleRecord30], metadata := some ("t".data) } : DBState) ≠
      { servers := [sampleA], metadata := some ("t".data) } := by decide

/-- C3 amended: `import_csv` commits only after every insert, so any failure
*inside it* — missing CSV, row validation, uniqueness violation — leaves
records and marker untouched, and no failing refresh ever advances the
marker; but the marker lives in a separate, later transaction, so a failure
of the metadata write after `import_csv` has committed leaves the new
records visible under the old marker (full rollback holds for every failure
point except that one). -/
theorem c3_replace_all_atomic (file : Option (List CsvRow)) :
    (∀ (conn : Conn) (e : ImportError) (conn' : Conn),
        import_csv conn file = .err e conn' → conn'.committed = conn.committed) ∧
    (∀ (initial : DBState) (now : Str) (s : DBState) (mf : Bool),
        init_database initial file now mf = .exited s → s.metadata = initial.metadata) ∧
    (∀ (initial : DBState) (now : Str) (s : DBState) (mf : Bool)
        (e : ImportError) (conn' : Conn),
        import_csv { committed := initial, pending := initial } file = .err e conn' →
        init_database initial file now mf = .exited s → s = initial) := by
  refine ⟨fun conn e conn' h => import_csv_err_committed h, ?_, ?_⟩
  · intro initial now s mf h
    simp only [init_database] at h
    rcases h2 : import_csv { committed := initial, pending := initial } file
      with ⟨c2, t⟩ | ⟨e, c2⟩
    · rw [h2] at h
      cases mf with
      | true =>
        simp only [if_true, InitDbResult.exited.injEq] at h
        rw [← h]
        exact import_csv_ok_metadata h2
      | false => simp at h
    · rw [h2] at h
      simp only [InitDbResult.exited.injEq] at h
      rw [← h]
      have := import_csv_err_committed h2
      rw [this]
  · intro initial now s mf e conn' himp h
    simp only [init_database, himp] at h
    simp only [InitDbResult.exited.injEq] at h
    rw [← h]
    exact import_csv_err_committed himp

/-- C3 witness: a concrete failing refresh — the second CSV row's `load`
column is not numeric — leaves the one-record store with its marker intact,
by the amended claim's rollback clause. -/
theorem c3_replace_all_atomic_witness :
    init_database { servers := [sampleA], metadata := some ("t".data) }
        (some [sampleRow, sampleRowBad]) ("now".data) false =
      .exited { servers := [sampleA], metadata := some ("t".data) } ∧
    { servers := [sampleA], metadata := some ("t".data) } =
      ({ servers := [sampleA], metadata := some ("t".data) } : DBState) := by
  have h : init_database { servers := [sampleA], metadata := some ("t".data) }
      (some [sampleRow, sampleRowBad]) ("now".data) false =
      .exited { servers := [sampleA], metadata := some ("t".data) } := by decide
  exact ⟨h, (c3_replace_all_atomic (some [sampleRow, sampleRowBad])).2.2
    { servers := [sampleA], metadata := some ("t".data) } ("now".data)
    { servers := [sampleA], metadata := some ("t".data) } false .rowError
    { committed := { servers := [sampleA], metadata := some ("t".data) },
      pending := { servers := [sampleRecord30], metadata := some ("t".data) } }
    (by decide) h⟩

/-! ### C8 — replaceAll idempotence -/

/-- C8: running the wholesale replacement twice with the same record batch
changes nothing between the calls — the stored state, hence the row count
and every query result, is identical after the first and after the second
import. -/
theorem c8_replace_all_idempotent (s : DBState) (file : Option (List CsvRow)) :
    importObservable (importObservable s file) file = importObservable s file ∧
    (importObservable (importObservable s file) file).servers.length =
      (importObservable s file).servers.length ∧
    ∀ (country city ip public_key : Option Str) (limit : Option Int) (offset : Int),
      get_servers (importObservable (importObservable s file) file).servers
          country city ip public_key limit offset =
        get_servers (importObservable s file).servers country city ip public_key limit offset := by
  have h : importObservable (importObservable s file) file = importObservable s file := by
    rw [importObservable_eq s file]
    cases file with
    | none => rfl
    | some rows =>
      rcases h' : insertRows [] rows with ⟨oe, tbl⟩
      cases oe with
      | some e0 =>
        simp only [h']
        rw [importObservable_eq]
        simp [h']
      | none =>
        simp only [h']
        rw [importObservable_eq]
        simp [h']
  exact ⟨h, by rw [h], fun country city ip pk limit off => by rw [h]⟩

/-! ### C10 — limit 0 / None means all matches, offset ignored -/

/-- C10: `get_servers` attaches `LIMIT` only when the limit is truthy, so
both `limit=None` and `limit=0` return every matching record, and the offset
is ignored in both cases (it is attached only inside the `if limit:`
branch). -/
theorem c10_limit_zero_means_all (db : List ServerDBRecord)
    (country city ip public_key : Option Str) (offset : Int) :
    get_servers db country city ip public_key none offset =
      db.filter (matchesFilters country city ip public_key) ∧
    get_servers db country city ip public_key (some 0) offset =
      db.filter (matchesFilters country city ip public_key) ∧
    get_servers db country city ip public_key none offset =
      get_servers db country city ip public_key none 0 ∧
    get_servers db country city ip public_key (some 0) offset =
      get_servers db country city ip public_key (some 0) 0 := by
  refine ⟨rfl, by simp [get_servers], rfl, by simp [get_servers]⟩

/-! ### C7 — config round-trip -/

/-- C7 (code bug): `ConfigManager.save` feeds `model_dump()` — which keeps
`client_ip`/`dns` as `ipaddress` objects — to `toml.dump`, whose encoder
serializes the iterable `IPv4Network` as an array of `repr` strings and the
`IPv4Address` as the string `IPv4Address('...')`.  `load_or_create` then
fails pydantic validation on the written document for *every* config, so
save-then-load never yields the original.  The validator itself is sound:
on the document a string-rendering save would have produced it returns the
default config exactly. -/
theorem c7_round_trip_fails :
    (∀ c : AppConfig, load_or_create (save c) = none) ∧
    save DEFAULT_CONFIG = .table [
      ("wireguard".data, .table [
        ("private_key_file".data, .str ("config/wireguard.key".data)),
        ("client_ip".data, .arr [.str ("IPv4Address('10.5.0.2')".data)]),
        ("dns".data, .str ("IPv4Address('192.168.68.14')".data)),
        ("persistent_keepalive".data, .int 25)]),
      ("database".data, .table [
        ("path".data, .str ("servers.db".data)),
        ("max_load".data, .int 100),
        ("default_limit".data, .int 0)]),
      ("output".data, .table [
        ("config_dir".data, .str ("/etc/wireguard".data)),
        ("config_wg_file".data, .str ("/etc/wireguard/wg0.conf".data))])] ∧
    load_or_create defaultConfigGoodDoc = some DEFAULT_CONFIG := by
  exact ⟨fun c => rfl, rfl, rfl⟩

/-! ### C5 — selector ranking -/

instance : IsTotal ServerDBRecord (fun a b => a.load ≤ b.load) :=
  ⟨fun a b => Int.le_total a.load b.load⟩

instance : IsTrans ServerDBRecord (fun a b => a.load ≤ b.load) :=
  ⟨fun _ _ _ h1 h2 => le_trans h1 h2⟩

/-- Load-30 sample record. -/
def c5s30 : ServerDBRecord :=
  { hostname := "h30".data, ip := "1.1.1.1".data, country := "france".data,
    city := "paris".data, load := 30, public_key := "k30".data }

/-- First load-10 sample record (earlier in store order). -/
def c5s10a : ServerDBRecord :=
  { hostname := "h10a".data, ip := "2.2.2.2".data, country := "france".data,
    city := "paris".data, load := 10, public_key := "k10a".data }

/-- Load-90 sample record. -/
def c5s90 : ServerDBRecord :=
  { hostname := "h90".data, ip := "3.3.3.3".data, country := "france".data,
    city := "paris".data, load := 90, public_key := "k90".data }

/-- Second load-10 sample record (later in store order). -/
def c5s10b : ServerDBRecord :=
  { hostname := "h10b".data, ip := "4.4.4.4".data, country := "france".data,
    city := "paris".data, load := 10, public_key := "k10b".data }

/-- C5 counterexample: the claim's universal "truncates to the given limit"
fails at `limit = 0` — Python's `if limit:` treats 0 as "no LIMIT clause",
so the call returns a record instead of an empty list. -/
theorem c5_counterexample :
    get_best_servers [c5s10a] none 0 50 false = [c5s10a] ∧
    ¬((get_best_servers [c5s10a] none 0 50 false).length ≤ 0) := by decide

/-- C5 amended: `get_best_servers` orders by load ascending and truncates to
the limit whenever the limit is positive (`limit = 0` disables truncation);
on the loads `[30, 10, 90, 10]` with `limit = 3` it returns the two load-10
records in store order followed by the load-30 record. -/
theorem c5_best_servers_ranking :
    (∀ (db : List ServerDBRecord) (country : Option Str) (limit : Nat)
        (max_load : Int) (show_all : Bool),
      List.Sorted (fun a b : ServerDBRecord => a.load ≤ b.load)
          (get_best_servers db country limit max_load show_all) ∧
      (0 < limit → (get_best_servers db country limit max_load show_all).length ≤ limit)) ∧
    get_best_servers [c5s30, c5s10a, c5s90, c5s10b] none 3 50 false =
      [c5s10a, c5s10b, c5s30] := by
  constructor
  · intro db country limit max_load show_all
    constructor
    · unfold get_best_servers sortByLoad
      split
      · exact List.Pairwise.sublist (List.take_sublist _ _) (List.sorted_insertionSort _ _)
      · exact List.sorted_insertionSort _ _
    · intro h
      unfold get_best_servers
      rw [if_pos (Nat.pos_iff_ne_zero.mp h)]
      exact List.length_take_le _ _
  · decide

/-- C5 witness: the truncation bound of the amended claim at the concrete
four-record store and positive limit 3. -/
theorem c5_best_servers_ranking_witness :
    (get_best_servers [c5s30, c5s10a, c5s90, c5s10b] none 3 50 false).length ≤ 3 :=
  ((c5_best_servers_ranking.1 [c5s30, c5s10a, c5s90, c5s10b] none 3 50 false).2 (by decide))

/-! ### C2 — matching priority -/

/-- Live details whose endpoint is the *empty* string (exactly what
`_parse_wg_interface_output` yields for a bare `endpoint:` line) and whose
key matches `sampleB`. -/
def c2details : WGConnectionDetails :=
  { public_key := some ("kb".data), endpoint := some [],
    transfer := { received := "0 B".data, sent := "0 B".data } }

/-- The query `get_servers(ip=e, limit=1)` is the first ip-match of the
store, in store order. -/
theorem get_servers_ip_take (db : List ServerDBRecord) (e : Str) :
    get_servers db none none (some e) none (some 1) 0 =
      (db.filter (fun r => r.ip == e)).take 1 := by
  simp [get_servers, matchesFilters, applyLimitOffset]

/-- C2 counterexample: take the inventory `[A, B]` with `A.ip = ""` and
live details whose `endpointAddress` equals `A`'s address (the empty string)
and whose `identityKey` equals `B`'s key.  Python's `if details.endpoint:`
is false for the empty string, so the address phase is skipped entirely and
the function returns `B` by key — not `A` by address as the claim states. -/
theorem c2_counterexample :
    sampleA ∈ [sampleA, sampleB] ∧ sampleB ∈ [sampleA, sampleB] ∧ sampleA ≠ sampleB ∧
    c2details.endpoint = some sampleA.ip ∧
    c2details.public_key = some sampleB.public_key ∧
    find_server_in_db c2details (.ok [sampleA, sampleB]) =
      (some sampleB, some ("public_key".data)) ∧
    find_server_in_db c2details (.ok [sampleA, sampleB]) ≠
      (some sampleA, some ("ip".data)) := by decide

/-- C2 amended: provided the live `endpointAddress` is nonempty (Python
truthiness), the address phase wins: if any record matches the address the
result is found by `'ip'` (the key fallback is never consulted), and if `A`
is the unique record holding that address the result is exactly `A` with
`'ip'`. -/
theorem c2_address_priority (details : WGConnectionDetails)
    (db : List ServerDBRecord) (e : Str)
    (h1 : details.endpoint = some e) (h2 : e ≠ []) :
    ((∃ r ∈ db, r.ip = e) →
      ∃ srv, find_server_in_db details (.ok db) = (some srv, some ("ip".data)) ∧
        srv.ip = e) ∧
    (∀ A ∈ db, A.ip = e → (∀ r ∈ db, r.ip = e → r = A) →
      find_server_in_db details (.ok db) = (some A, some ("ip".data))) := by
  have htr : optTruthy (some e) = true := by
    simp [optTruthy, h2]
  have hfind : ∀ r0 t, db.filter (fun r => r.ip == e) = r0 :: t →
      find_server_in_db details (.ok db) = (some r0, some ("ip".data)) := by
    intro r0 t hF
    have hr0 : r0 ∈ db ∧ (r0.ip == e) = true :=
      List.mem_filter.mp (hF ▸ List.mem_cons_self r0 t)
    simp only [find_server_in_db, h1, htr, if_true, Option.getD_some,
      get_servers_ip_take, hF, List.take_succ_cons, List.take_zero]
    simp [List.find?, hr0.2]
  constructor
  · rintro ⟨r, hr, hre⟩
    rcases hF : db.filter (fun x => x.ip == e) with _ | ⟨r0, t⟩
    · exfalso
      have := List.filter_eq_nil_iff.mp hF r hr
      simp [hre] at this
    · have h0 := List.mem_filter.mp (hF ▸ List.mem_cons_self r0 t)
      exact ⟨r0, hfind r0 t hF, by simpa using h0.2⟩
  · intro A hA hAe huniq
    rcases hF : db.filter (fun x => x.ip == e) with _ | ⟨r0, t⟩
    · exfalso
      have := List.filter_eq_nil_iff.mp hF A hA
      simp [hAe] at this
    · have h0 := List.mem_filter.mp (hF ▸ List.mem_cons_self r0 t)
      have : r0 = A := huniq r0 h0.1 (by simpa using h0.2)
      rw [← this]
      exact hfind r0 t hF

/-- C2 witness: on the one-record store `[B]` with live details carrying
`B`'s (nonempty) address, the amended claim yields `B` found by `'ip'`. -/
theorem c2_address_priority_witness :
    find_server_in_db
        { public_key := none, endpoint := some ("9.9.9.9".data),
          transfer := { received := "0 B".data, sent := "0 B".data } }
        (.ok [sampleB]) = (some sampleB, some ("ip".data)) :=
  (c2_address_priority _ [sampleB] ("9.9.9.9".data) rfl (by decide)).2
    sampleB (by decide) (by decide) (fun r hr _ => List.mem_singleton.mp hr)

/-! ### C1 / C6 — shape of every status report -/

/-- Every report `check_wireguard_status` can return has one of four shapes:
disconnected and empty; connected but empty (the verbose output failed to
parse); connected and matched; connected and unmatched. -/
theorem check_status_shape (a b : ToolCallOutcome) (dbc : DbConnectOutcome) :
    check_wireguard_status a b dbc = { is_connected := false } ∨
    check_wireguard_status a b dbc = { is_connected := true } ∨
    (∃ d info, check_wireguard_status a b dbc =
      { is_connected := true, interface_details := some d,
        app_server_info := some info }) ∨
    (∃ d, check_wireguard_status a b dbc =
      { is_connected := true, interface_details := some d,
        raw_unmatched_details := some d }) := by
  cases a with
  | raise => exact Or.inl rfl
  | ret rc out =>
    by_cases h1 : rc ≠ 0
    · simp only [check_wireguard_status, if_pos h1]
      exact Or.inl trivial
    · by_cases h2 : (!((pySplitSub ("\n\n".data) (pyStrip out)).any
          (fun i => ("interface: wg0".data).isPrefixOf i))) = true
      · simp only [check_wireguard_status, if_neg h1, if_pos h2]
        exact Or.inl trivial
      · simp only [check_wireguard_status, if_neg h1, if_neg h2]
        cases b with
        | raise => exact Or.inl rfl
        | ret rc2 out2 =>
          rcases hp : parse_wg_interface_output out2 with _ | d
          · simp only [hp]
            exact Or.inr (Or.inl trivial)
          · simp only [hp]
            cases dbc with
            | raiseConn => exact Or.inl rfl
            | conn q =>
              rcases hf : find_server_in_db d q with ⟨os, m⟩
              cases os with
              | some srv =>
                simp only [hf]
                exact Or.inr (Or.inr (Or.inl ⟨d, _, rfl⟩))
              | none =>
                simp only [hf]
                exact Or.inr (Or.inr (Or.inr ⟨d, rfl⟩))

/-- C1 counterexample: the listing call reports the `wg0` interface up, but
the verbose output makes the parser throw (a `transfer:` line holding both
`received` and `sent` with no comma), so the report is `connected = true`
with *neither* `app_server_info` nor `raw_unmatched_details` populated. -/
theorem c1_counterexample :
    (check_wireguard_status (.ret 0 ("interface: wg0".data))
        (.ret 0 ("transfer: 1 mib received 2 mib sent".data))
        (.conn (.ok []))).is_connected = true ∧
    (check_wireguard_status (.ret 0 ("interface: wg0".data))
        (.ret 0 ("transfer: 1 mib received 2 mib sent".data))
        (.conn (.ok []))).app_server_info = none ∧
    (check_wireguard_status (.ret 0 ("interface: wg0".data))
        (.ret 0 ("transfer: 1 mib received 2 mib sent".data))
        (.conn (.ok []))).raw_unmatched_details = none := by decide

/-- C1 amended: when `connected = false` both fields are absent; when
`connected = true` at most one is populated, and exactly one is populated
precisely when the verbose output parsed (`interface_details` present) —
an unparseable verbose output leaves a connected report with both absent. -/
theorem c1_report_invariant (a b : ToolCallOutcome) (dbc : DbConnectOutcome) :
    ((check_wireguard_status a b dbc).is_connected = false →
      (check_wireguard_status a b dbc).app_server_info = none ∧
      (check_wireguard_status a b dbc).raw_unmatched_details = none) ∧
    ((check_wireguard_status a b dbc).is_connected = true →
      ¬((check_wireguard_status a b dbc).app_server_info ≠ none ∧
        (check_wireguard_status a b dbc).raw_unmatched_details ≠ none) ∧
      ((check_wireguard_status a b dbc).interface_details ≠ none ↔
        ((check_wireguard_status a b dbc).app_server_info ≠ none ∨
         (check_wireguard_status a b dbc).raw_unmatched_details ≠ none))) := by
  rcases check_status_shape a b dbc with h | h | ⟨d, info, h⟩ | ⟨d, h⟩ <;> rw [h] <;> simp

/-- C1 witness: the amended claim applied to a raising listing call — the
disconnected report carries neither field. -/
theorem c1_report_invariant_witness :
    (check_wireguard_status .raise .raise .raiseConn).app_server_info = none ∧
    (check_wireguard_status .raise .raise .raiseConn).raw_unmatched_details = none :=
  (c1_report_invariant .raise .raise .raiseConn).1 (by decide)

/-- C6 counterexample: the listing call succeeds and shows `wg0` up, the
verbose call *fails* with exit code 1 — an external-tool failure — yet the
report still says `connected = true`, because the verbose call's return
code is never inspected. -/
theorem c6_counterexample :
    (check_wireguard_status (.ret 0 ("interface: wg0".data)) (.ret 1 [])
        (.conn (.ok []))).is_connected = true := by decide

/-- C6 amended: `check_wireguard_status` never raises — it returns a report
for every collaborator behaviour; an exception or non-zero exit of the
listing call and an exception of the verbose call all yield
`connected = false`; but the verbose call's exit code is ignored entirely
(the result is the same whatever code it returns), so a non-zero exit there
does not force `connected = false`. -/
theorem c6_failures_downgraded (first second : ToolCallOutcome) (dbc : DbConnectOutcome) :
    (check_wireguard_status .raise second dbc).is_connected = false ∧
    (∀ (rc : Int) (out : Str), rc ≠ 0 →
      (check_wireguard_status (.ret rc out) second dbc).is_connected = false) ∧
    (check_wireguard_status first .raise dbc).is_connected = false ∧
    (∀ (rc2 rc2' : Int) (out2 : Str),
      check_wireguard_status first (.ret rc2 out2) dbc =
        check_wireguard_status first (.ret rc2' out2) dbc) := by
  refine ⟨rfl, ?_, ?_, ?_⟩
  · intro rc out h
    simp only [check_wireguard_status, if_pos h]
  · cases first with
    | raise => rfl
    | ret rc out =>
      simp only [check_wireguard_status]
      split
      · rfl
      · split
        · rfl
        · rfl
  · intro rc2 rc2' out2
    cases first with
    | raise => rfl
    | ret rc out => rfl

/-- C6 witness: the amended claim applied to a listing call that exits with
code 1 — the report says disconnected. -/
theorem c6_failures_downgraded_witness :
    (check_wireguard_status (.ret 1 []) .raise (.conn (.ok []))).is_connected = false :=
  (c6_failures_downgraded (.ret 1 []) .raise (.conn (.ok []))).2.1 1 [] (by decide)

/-! ### C4 — parser totality -/

/-- The exact condition under which one line makes the parse throw: the elif
chain reaches the `transfer:` branch, the remainder holds both `received`
and `sent`, and the comma split does not have exactly two parts. -/
def lineRaises (rawLine : Str) : Bool :=
  let line := pyLower (pyStrip rawLine)
  !pyIn ("peer:".data) line && !pyIn ("endpoint:".data) line &&
  !pyIn ("latest handshake:".data) line && pyIn ("transfer:".data) line &&
  ((pyIn ("received".data) (transferRest line) && pyIn ("sent".data) (transferRest line)) &&
   ((pySplitChar ',' (transferRest line)).length != 2))

/-- A line aborts the parse exactly when `lineRaises` says so, regardless of
the dictionary accumulated so far. -/
theorem parseLine_none_iff (st : ParseState) (l : Str) :
    parseLine st l = none ↔ lineRaises l = true := by
  unfold parseLine lineRaises
  cases hpeer : pyIn ("peer:".data) (pyLower (pyStrip l)) with
  | true => simp [hpeer]
  | false =>
    cases hep : pyIn ("endpoint:".data) (pyLower (pyStrip l)) with
    | true => simp [hpeer, hep]
    | false =>
      cases hh : pyIn ("latest handshake:".data) (pyLower (pyStrip l)) with
      | true => simp [hpeer, hep, hh]
      | false =>
        cases ht : pyIn ("transfer:".data) (pyLower (pyStrip l)) with
        | false => simp [hpeer, hep, hh, ht]
        | true =>
          cases hb1 : pyIn ("received".data) (transferRest (pyLower (pyStrip l))) with
          | false => simp [hpeer, hep, hh, ht, hb1]
          | true =>
            cases hb2 : pyIn ("sent".data) (transferRest (pyLower (pyStrip l))) with
            | false => simp [hpeer, hep, hh, ht, hb1, hb2]
            | true =>
              simp only [hpeer, hep, hh, ht, hb1, hb2, Bool.not_false, Bool.true_and,
                Bool.and_self, bne_iff_ne, ne_eq, if_false, if_true, Bool.false_eq_true,
                Bool.and_eq_true, decide_eq_true_eq]
              rcases hsp : pySplitChar ',' (transferRest (pyLower (pyStrip l)))
                with _ | ⟨a, _ | ⟨b, _ | ⟨c, t'⟩⟩⟩ <;> simp [hsp]

/-- The line loop returns `None` exactly when some line raises. -/
theorem parseLines_none_iff (ls : List Str) :
    ∀ st, parseLines st ls = none ↔ ∃ l ∈ ls, lineRaises l = true := by
  induction ls with
  | nil => intro st; simp [parseLines]
  | cons l ls ih =>
    intro st
    simp only [parseLines]
    cases hpl : parseLine st l with
    | none =>
      simp only [List.mem_cons]
      exact iff_of_true trivial ⟨l, Or.inl rfl, (parseLine_none_iff st l).mp hpl⟩
    | some st' =>
      have hnot : lineRaises l ≠ true := fun hr => by
        have := (parseLine_none_iff st l).mpr hr
        rw [hpl] at this
        cases this
      simp only [ih st', List.mem_cons]
      constructor
      · rintro ⟨l0, hl0, hr0⟩
        exact ⟨l0, Or.inr hl0, hr0⟩
      · rintro ⟨l0, hl0 | hl0, hr0⟩
        · exact absurd (hl0 ▸ hr0) hnot
        · exact ⟨l0, hl0, hr0⟩

/-- C4 counterexample: the empty string does *not* return null — it returns
a details object with every optional field unset — while the non-empty
input `transfer: 1 mib received 2 mib sent` (no comma) *does* return null. -/
theorem c4_counterexample :
    parse_wg_interface_output [] ≠ none ∧
    parse_wg_interface_output ("transfer: 1 mib received 2 mib sent".data) = none ∧
    ("transfer: 1 mib received 2 mib sent".data) ≠ ([] : Str) := by decide

/-- C4 amended: the parse never throws; it returns `None` exactly when some
line of the input reaches the `transfer:` branch with a remainder that
contains both `received` and `sent` but does not split on `','` into two
parts; the empty string in particular yields a details object with all
optional fields unset and the default `'0 B'` transfer strings. -/
theorem c4_parse_totality (output : Str) :
    (parse_wg_interface_output output = none ↔
      ∃ l ∈ pySplitChar '\n' output, lineRaises l = true) ∧
    parse_wg_interface_output [] =
      some { public_key := none, endpoint := none, latest_handshake := none,
             transfer := { received := "0 B".data, sent := "0 B".data } } := by
  constructor
  · have h := parseLines_none_iff (pySplitChar '\n' output) initialParseState
    unfold parse_wg_interface_output
    rcases hp : parseLines initialParseState (pySplitChar '\n' output) with _ | st
    · rw [hp] at h
      simp only [hp]
      exact iff_of_true trivial (h.mp rfl)
    · rw [hp] at h
      simp only [hp]
      refine iff_of_false (by simp) (fun hex => ?_)
      have h2 := h.mpr hex
      cases h2
  · decide

/-! ### C9 — lowercasing of parsed fields -/

/-- Lowering is idempotent on characters. -/
theorem pyLowerChar_fixed (c : Char) : pyLowerChar (pyLowerChar c) = pyLowerChar c := by
  unfold pyLowerChar
  by_cases h : (65 ≤ c.toNat && c.toNat ≤ 90) = true
  · rw [if_pos h]
    obtain ⟨h1, h2⟩ : 65 ≤ c.toNat ∧ c.toNat ≤ 90 := by simpa using h
    generalize c.toNat = n at h1 h2
    interval_cases n <;> decide
  · rw [if_neg h, if_neg h]

/-- A string is fixed by lowering exactly when each character is. -/
theorem pyLower_fixed_iff : ∀ s : Str, pyLower s = s ↔ ∀ c ∈ s, pyLowerChar c = c
  | [] => by simp [pyLower]
  | a :: t => by
    simp only [pyLower, List.map, List.cons.injEq, List.mem_cons]
    constructor
    · rintro ⟨h1, h2⟩ c (rfl | hc)
      · exact h1
      · exact ((pyLower_fixed_iff t).mp h2) c hc
    · intro h
      exact ⟨h a (Or.inl rfl), (pyLower_fixed_iff t).mpr (fun c hc => h c (Or.inr hc))⟩

/-- A lowered string is fixed by lowering. -/
theorem pyLower_pyLower (s : Str) : pyLower (pyLower s) = pyLower s :=
  (pyLower_fixed_iff _).mpr (fun c hc => by
    obtain ⟨a, _, rfl⟩ := List.mem_map.mp hc
    exact pyLowerChar_fixed a)

/-- Any string whose characters all come from a lowering-fixed string is
itself lowering-fixed. -/
theorem pyLower_fixed_of_subset {a b : Str} (hsub : ∀ c ∈ a, c ∈ b)
    (hb : pyLower b = b) : pyLower a = a :=
  (pyLower_fixed_iff a).mpr (fun c hc => (pyLower_fixed_iff b).mp hb c (hsub c hc))

/-- `pyStrip` keeps only characters of its input. -/
theorem subset_pyStrip (s : Str) : ∀ c ∈ pyStrip s, c ∈ s := by
  intro c hc
  unfold pyStrip at hc
  rw [List.mem_reverse] at hc
  have h1 : c ∈ (s.dropWhile pyIsSpace).reverse := List.dropWhile_subset _ hc
  rw [List.mem_reverse] at h1
  exact List.dropWhile_subset _ h1

/-- Every piece of `pySplitChar` is made of characters of the input. -/
theorem subset_pySplitChar (sep : Char) :
    ∀ (s : Str), ∀ p ∈ pySplitChar sep s, ∀ c ∈ p, c ∈ s := by
  intro s
  induction s with
  | nil =>
    intro p hp c hc
    simp only [pySplitChar, List.mem_singleton] at hp
    subst hp
    cases hc
  | cons a t ih =>
    intro p hp c hc
    simp only [pySplitChar] at hp
    rcases hrec : pySplitChar sep t with _ | ⟨h0, t0⟩
    · simp only [hrec, List.mem_singleton] at hp
      subst hp
      rw [List.mem_singleton] at hc
      rw [hc]
      exact List.mem_cons_self _ _
    · simp only [hrec] at hp
      by_cases hsep : a = sep
      · rw [if_pos hsep] at hp
        rcases List.mem_cons.mp hp with rfl | hp'
        · cases hc
        · exact List.mem_cons_of_mem a (ih p (hrec ▸ hp') c hc)
      · rw [if_neg hsep] at hp
        rcases List.mem_cons.mp hp with rfl | hp'
        · rcases List.mem_cons.mp hc with rfl | hc'
          · exact List.mem_cons_self _ _
          · exact List.mem_cons_of_mem a
              (ih h0 (hrec ▸ List.mem_cons_self h0 t0) c hc')
        · exact List.mem_cons_of_mem a
            (ih p (hrec ▸ List.mem_cons_of_mem h0 hp') c hc)

/-- Every piece of `pySplit1Char` is made of characters of the input. -/
theorem subset_pySplit1Char (sep : Char) :
    ∀ (s : Str), ∀ p ∈ pySplit1Char sep s, ∀ c ∈ p, c ∈ s := by
  intro s
  induction s with
  | nil =>
    intro p hp c hc
    simp only [pySplit1Char, List.mem_singleton] at hp
    subst hp
    cases hc
  | cons a t ih =>
    intro p hp c hc
    simp only [pySplit1Char] at hp
    by_cases hsep : a = sep
    · rw [if_pos hsep] at hp
      rcases List.mem_cons.mp hp with rfl | hp'
      · cases hc
      · rw [List.mem_singleton] at hp'
        subst hp'
        exact List.mem_cons_of_mem a hc
    · rw [if_neg hsep] at hp
      rcases hrec : pySplit1Char sep t with _ | ⟨h0, t0⟩
      · simp only [hrec, List.mem_singleton] at hp
        subst hp
        rw [List.mem_singleton] at hc
        rw [hc]
        exact List.mem_cons_self _ _
      · simp only [hrec] at hp
        rcases List.mem_cons.mp hp with rfl | hp'
        · rcases List.mem_cons.mp hc with rfl | hc'
          · exact List.mem_cons_self _ _
          · exact List.mem_cons_of_mem a
              (ih h0 (hrec ▸ List.mem_cons_self h0 t0) c hc')
        · exact List.mem_cons_of_mem a
            (ih p (hrec ▸ List.mem_cons_of_mem h0 hp') c hc)

/-- Every piece the fueled splitter yields is made of input characters. -/
theorem subset_pySplitSubAux (sep : Str) :
    ∀ (fuel : Nat) (s : Str), ∀ p ∈ pySplitSubAux sep fuel s, ∀ c ∈ p, c ∈ s := by
  intro fuel
  induction fuel with
  | zero =>
    intro s p hp c hc
    cases s with
    | nil =>
      simp only [pySplitSubAux, List.mem_singleton] at hp
      subst hp
      cases hc
    | cons a t =>
      simp only [pySplitSubAux, List.mem_singleton] at hp
      subst hp
      exact hc
  | succ f ih =>
    intro s p hp c hc
    cases s with
    | nil =>
      simp only [pySplitSubAux, List.mem_singleton] at hp
      subst hp
      cases hc
    | cons a t =>
      simp only [pySplitSubAux] at hp
      by_cases hpre : (!sep.isEmpty && sep.isPrefixOf (a :: t)) = true
      · rw [if_pos hpre] at hp
        rcases List.mem_cons.mp hp with rfl | hp'
        · cases hc
        · exact List.drop_subset _ _ (ih _ p hp' c hc)
      · rw [if_neg hpre] at hp
        rcases hrec : pySplitSubAux sep f t with _ | ⟨h0, t0⟩
        · simp only [hrec, List.mem_singleton] at hp
          subst hp
          rw [List.mem_singleton] at hc
          rw [hc]
          exact List.mem_cons_self _ _
        · simp only [hrec] at hp
          rcases List.mem_cons.mp hp with rfl | hp'
          · rcases List.mem_cons.mp hc with rfl | hc'
            · exact List.mem_cons_self _ _
            · exact List.mem_cons_of_mem a
                (ih t h0 (hrec ▸ List.mem_cons_self h0 t0) c hc')
          · exact List.mem_cons_of_mem a
              (ih t p (hrec ▸ List.mem_cons_of_mem h0 hp') c hc)

/-- Every piece of `pySplitSub` is made of characters of the input. -/
theorem subset_pySplitSub (sep s : Str) :
    ∀ p ∈ pySplitSub sep s, ∀ c ∈ p, c ∈ s := by
  intro p hp c hc
  unfold pySplitSub at hp
  by_cases he : sep.isEmpty = true
  · rw [if_pos he] at hp
    rw [List.mem_singleton] at hp
    subst hp
    exact hc
  · rw [if_neg he] at hp
    exact subset_pySplitSubAux sep s.length s p hp c hc

/-- A character of the `i`-th piece (default `[]`) comes from some piece. -/
theorem subset_getD_pieces {pieces : List Str} {i : Nat} {c : Char}
    (hc : c ∈ pieces.getD i []) : ∃ p ∈ pieces, c ∈ p := by
  rw [List.getD_eq_getElem?_getD] at hc
  rcases hq : pieces[i]? with _ | p
  · rw [hq] at hc
    cases hc
  · rw [hq] at hc
    exact ⟨p, List.getElem?_mem hq, hc⟩

/-- The `transfer:` remainder is made of characters of the line. -/
theorem subset_transferRest (line : Str) : ∀ c ∈ transferRest line, c ∈ line := by
  intro c hc
  have h1 := subset_pyStrip _ c hc
  obtain ⟨p, hp, hcp⟩ := subset_getD_pieces h1
  exact subset_pySplit1Char ':' line p hp c hcp

/-- The lowercasing invariant on the accumulated dictionary: every optional
field it holds is lowering-fixed, and the transfer strings are either the
default `'0 B'` or lowering-fixed. -/
def stateLower (st : ParseState) : Prop :=
  (∀ s, st.public_key = some s → pyLower s = s) ∧
  (∀ s, st.endpoint = some s → pyLower s = s) ∧
  (∀ s, st.latest_handshake = some s → pyLower s = s) ∧
  (st.received = "0 B".data ∨ pyLower st.received = st.received) ∧
  (st.sent = "0 B".data ∨ pyLower st.sent = st.sent)

/-- Characters of a stripped split piece of `s` come from `s`
(single-character separator, any piece index). -/
theorem subset_splitChar_strip_getD (sep : Char) (line : Str) (i : Nat) :
    ∀ c ∈ pyStrip ((pySplitChar sep line).getD i []), c ∈ line := by
  intro c hc
  obtain ⟨p, hp, hcp⟩ := subset_getD_pieces (subset_pyStrip _ c hc)
  exact subset_pySplitChar sep line p hp c hcp

/-- Characters of a split piece of `s` come from `s`. -/
theorem subset_splitChar_getD (sep : Char) (s : Str) (i : Nat) :
    ∀ c ∈ (pySplitChar sep s).getD i [], c ∈ s := by
  intro c hc
  obtain ⟨p, hp, hcp⟩ := subset_getD_pieces hc
  exact subset_pySplitChar sep s p hp c hcp

/-- Characters of a stripped piece of a multi-character split come from the
input. -/
theorem subset_splitSub_strip_getD (sep s : Str) (i : Nat) :
    ∀ c ∈ pyStrip ((pySplitSub sep s).getD i []), c ∈ s := by
  intro c hc
  obtain ⟨p, hp, hcp⟩ := subset_getD_pieces (subset_pyStrip _ c hc)
  exact subset_pySplitSub sep s p hp c hcp

/-- Characters of the stripped split1 piece come from the input. -/
theorem subset_split1_strip_getD (sep : Char) (line : Str) (i : Nat) :
    ∀ c ∈ pyStrip ((pySplit1Char sep line).getD i []), c ∈ line := by
  intro c hc
  obtain ⟨p, hp, hcp⟩ := subset_getD_pieces (subset_pyStrip _ c hc)
  exact subset_pySplit1Char sep line p hp c hcp

/-- One line of the loop preserves the lowercasing invariant: every value it
assigns is carved out of `line.strip().lower()`. -/
theorem parseLine_stateLower {st st' : ParseState} {l : Str}
    (hinv : stateLower st) (h : parseLine st l = some st') : stateLower st' := by
  obtain ⟨hpk, hep, hhs, hrc, hsn⟩ := hinv
  have hline : pyLower (pyLower (pyStrip l)) = pyLower (pyStrip l) := pyLower_pyLower _
  simp only [parseLine] at h
  by_cases h1 : pyIn ("peer:".data) (pyLower (pyStrip l)) = true
  · rw [if_pos h1] at h
    replace h := Option.some.inj h
    subst h
    refine ⟨?_, hep, hhs, hrc, hsn⟩
    intro s hs
    rw [← Option.some.inj hs]
    exact pyLower_fixed_of_subset (subset_splitChar_strip_getD ':' _ 1) hline
  · rw [if_neg h1] at h
    by_cases h2 : pyIn ("endpoint:".data) (pyLower (pyStrip l)) = true
    · rw [if_pos h2] at h
      replace h := Option.some.inj h
      subst h
      refine ⟨hpk, ?_, hhs, hrc, hsn⟩
      intro s hs
      rw [← Option.some.inj hs]
      by_cases hcolon : pyIn (":".data)
          (pyStrip ((pySplitChar ':' (pyLower (pyStrip l))).getD 1 [])) = true
      · rw [if_pos hcolon]
        refine pyLower_fixed_of_subset (fun c hc => ?_) hline
        exact subset_splitChar_strip_getD ':' _ 1 c
          (subset_splitChar_getD ':' _ 0 c hc)
      · rw [if_neg hcolon]
        exact pyLower_fixed_of_subset (subset_splitChar_strip_getD ':' _ 1) hline
    · rw [if_neg h2] at h
      by_cases h3 : pyIn ("latest handshake:".data) (pyLower (pyStrip l)) = true
      · rw [if_pos h3] at h
        replace h := Option.some.inj h
        subst h
        refine ⟨hpk, hep, ?_, hrc, hsn⟩
        intro s hs
        rw [← Option.some.inj hs]
        exact pyLower_fixed_of_subset (subset_split1_strip_getD ':' _ 1) hline
      · rw [if_neg h3] at h
        by_cases h4 : pyIn ("transfer:".data) (pyLower (pyStrip l)) = true
        · rw [if_pos h4] at h
          by_cases hb : (pyIn ("received".data) (transferRest (pyLower (pyStrip l))) &&
              pyIn ("sent".data) (transferRest (pyLower (pyStrip l)))) = true
          · rw [if_pos hb] at h
            rcases hsp : pySplitChar ',' (transferRest (pyLower (pyStrip l)))
              with _ | ⟨recPart, _ | ⟨sentPart, _ | ⟨x, t'⟩⟩⟩ <;> rw [hsp] at h
            · cases h
            · cases h
            · replace h := Option.some.inj h
              subst h
              have hrec' : ∀ c ∈ recPart, c ∈ pyLower (pyStrip l) := fun c hc =>
                subset_transferRest _ c (subset_pySplitChar ',' _ recPart
                  (hsp ▸ List.mem_cons_self _ _) c hc)
              have hsent' : ∀ c ∈ sentPart, c ∈ pyLower (pyStrip l) := fun c hc =>
                subset_transferRest _ c (subset_pySplitChar ',' _ sentPart
                  (hsp ▸ List.mem_cons_of_mem _ (List.mem_cons_self _ _)) c hc)
              refine ⟨hpk, hep, hhs, Or.inr ?_, Or.inr ?_⟩
              · refine pyLower_fixed_of_subset (fun c hc => ?_) hline
                exact hrec' c (subset_splitSub_strip_getD ("received".data) _ 0 c hc)
              · refine pyLower_fixed_of_subset (fun c hc => ?_) hline
                exact hsent' c (subset_splitSub_strip_getD ("sent".data) _ 0 c hc)
            · cases h
          · rw [if_neg hb] at h
            replace h := Option.some.inj h
            subst h
            exact ⟨hpk, hep, hhs, hrc, hsn⟩
        · rw [if_neg h4] at h
          replace h := Option.some.inj h
          subst h
          exact ⟨hpk, hep, hhs, hrc, hsn⟩

/-- The whole line loop preserves the lowercasing invariant. -/
theorem parseLines_stateLower :
    ∀ (ls : List Str) (st st' : ParseState), stateLower st →
      parseLines st ls = some st' → stateLower st' := by
  intro ls
  induction ls with
  | nil =>
    intro st st' hinv h
    simp only [parseLines] at h
    exact (Option.some.inj h) ▸ hinv
  | cons l ls ih =>
    intro st st' hinv h
    simp only [parseLines] at h
    rcases hpl : parseLine st l with _ | st1
    · rw [hpl] at h
      cases h
    · rw [hpl] at h
      exact ih st1 st' (parseLine_stateLower hinv hpl) h

/-- The initial dictionary satisfies the invariant (its transfer strings are
the defaults). -/
theorem initialParseState_stateLower : stateLower initialParseState := by
  refine ⟨fun s hs => Option.noConfusion hs, fun s hs => Option.noConfusion hs,
    fun s hs => Option.noConfusion hs, Or.inl rfl, Or.inl rfl⟩

/-- C9 counterexample: for the empty raw input the parse succeeds and its
`transfer.received` field is the default `'0 B'`, which is *not* entirely
lowercase (`'B'` lowers to `'b'`), refuting "every string field it returns
is entirely lowercase". -/
theorem c9_counterexample :
    parse_wg_interface_output [] =
      some { public_key := none, endpoint := none, latest_handshake := none,
             transfer := { received := "0 B".data, sent := "0 B".data } } ∧
    pyLower ("0 B".data) ≠ "0 B".data := by decide

/-- C9 amended: every *parsed* field is entirely lowercase (it is carved out
of `line.strip().lower()`): the optional fields always, the transfer strings
unless they are the uppercase-containing default `'0 B'`; consequently the
identity-key fallback of `_find_server_in_db` succeeds only for records
whose stored `public_key` equals the (lowercased) live key. -/
theorem c9_fields_lowercase (raw : Str) (d : WGConnectionDetails)
    (h : parse_wg_interface_output raw = some d) :
    (∀ s, d.public_key = some s → pyLower s = s) ∧
    (∀ s, d.endpoint = some s → pyLower s = s) ∧
    (∀ s, d.latest_handshake = some s → pyLower s = s) ∧
    (d.transfer.received = "0 B".data ∨ pyLower d.transfer.received = d.transfer.received) ∧
    (d.transfer.sent = "0 B".data ∨ pyLower d.transfer.sent = d.transfer.sent) ∧
    (∀ (db : List ServerDBRecord) (r : ServerDBRecord),
      find_server_in_db d (.ok db) = (some r, some ("public_key".data)) →
      ∃ k, d.public_key = some k ∧ r.public_key = k ∧ pyLower k = k) := by
  simp only [parse_wg_interface_output] at h
  rcases hps : parseLines initialParseState (pySplitChar '\n' raw) with _ | st
  · rw [hps] at h
    cases h
  · rw [hps] at h
    replace h := Option.some.inj h
    obtain ⟨hpk, hep, hhs, hrc, hsn⟩ :=
      parseLines_stateLower _ _ _ initialParseState_stateLower hps
    have hd1 : d.public_key = st.public_key := by rw [← h]
    have hd2 : d.endpoint = st.endpoint := by rw [← h]
    have hd3 : d.latest_handshake = st.latest_handshake := by rw [← h]
    have hd4 : d.transfer.received = st.received := by rw [← h]
    have hd5 : d.transfer.sent = st.sent := by rw [← h]
    refine ⟨fun s hs => hpk s (hd1 ▸ hs), fun s hs => hep s (hd2 ▸ hs),
      fun s hs => hhs s (hd3 ▸ hs), hd4 ▸ hrc, hd5 ▸ hsn, ?_⟩
    intro db r hf
    simp only [find_server_in_db] at hf
    have hip : ∀ srvOpt, (if optTruthy d.endpoint = true then
        (get_servers db none none (some (d.endpoint.getD [])) none (some 1) 0).find?
          (fun srv => srv.ip == d.endpoint.getD []) else none) = srvOpt →
        srvOpt = none := by
      intro srvOpt heq
      rcases srvOpt with _ | srv
      · rfl
      · exfalso
        rw [heq] at hf
        simp only [Prod.mk.injEq, Option.some.injEq] at hf
        have : ("ip".data : Str) = "public_key".data := hf.2
        exact absurd this (by decide)
    rw [hip _ rfl] at hf
    by_cases hkt : optTruthy d.public_key = true
    · rw [if_pos hkt] at hf
      rcases hdk : d.public_key with _ | k
      · rw [hdk] at hkt
        cases hkt
      · rcases hfind : (get_servers db none none none (some (d.public_key.getD []))
            (some 1) 0).find? (fun srv => srv.public_key == d.public_key.getD [])
          with _ | srv
        · rw [hfind] at hf
          simp at hf
        · rw [hfind] at hf
          simp only [Prod.mk.injEq, Option.some.injEq] at hf
          have hsrv := List.find?_some hfind
          rw [hdk] at hsrv
          simp only [Option.getD_some, beq_iff_eq] at hsrv
          exact ⟨k, rfl, by rw [← hf.1]; exact hsrv, hpk k (hd1 ▸ hdk)⟩
    · rw [if_neg hkt] at hf
      simp at hf

/-- The details `peer: AbC` parses to. -/
def c9witnessDetails : WGConnectionDetails :=
  { public_key := some ("abc".data),
    transfer := { received := "0 B".data, sent := "0 B".data } }

/-- C9 witness: the amended claim applied to the concrete raw output
`peer: AbC` — the parsed key `abc` is fixed by lowering. -/
theorem c9_fields_lowercase_witness :
    pyLower ("abc".data) = "abc".data :=
  (c9_fields_lowercase ("peer: AbC".data) c9witnessDetails (by decide)).1
    ("abc".data) (by decide)

end Nordhero
